import Mathlib

set_option maxHeartbeats 1000000

/-!
Verification development for the Sysadmin-Copilot repository.

The repository's core logic lives in three Python files:
- `src/tools/evaluator.py`: a command safety gate (`CommandEvaluator`) that
  checks a shell command against an ordered list of regex patterns
  (`\bwget\b`, `\bcurl\b`, `\bunset\b`) and either refuses the command or
  forwards it to the remote SSM executor;
- `src/tools/aws.py`: `SSMClient.execute_command`, a bounded polling loop
  (30 attempts) over a remote command status, returning a timeout error when
  no terminal status is observed, plus startup environment-variable checks;
- `src/agent/agent.py`: a two-node LangGraph loop (`llm_call` / `tool_node`)
  with `should_continue` routing, a fixed tool registry, and per-tool-call
  exception absorption.

This file gives a shallow embedding of those parts and proves the spec's
claims about them.  External services (the LLM, boto3/SSM transport, Gmail
API) are modelled as function parameters; the embedding records the calls
made to them (an invocation trace) so that never-invoked / invoked-once
properties are provable.
-/

/-! ### Word-boundary regex model

`evaluator.py` uses `re.search` with patterns of the single shape
`\b<literal>\b` where the literal is a plain alphabetic word.  We embed
Python's `re.search` restricted to exactly that fragment: a match is an
occurrence of the literal with a non-word character (or string edge) on each
side.  Word characters are modelled as ASCII alphanumerics plus underscore
(Python's `\w` for the ASCII commands this system handles).
-/

/-- ASCII word character, modelling Python regex `\w` on ASCII input. -/
def isWordChar (c : Char) : Bool := c.isAlphanum || c == '_'

/-- The character at a word-boundary side: the string edge (`none`) or a
non-word character. -/
def boundary : Option Char → Bool
  | none => true
  | some c => !isWordChar c

/-- Does the word `w` match at the very start of `s`, with a word boundary
after it?  (The boundary before the match is checked by the caller.) -/
def matchesAt : List Char → List Char → Bool
  | [], s => boundary s.head?
  | _ :: _, [] => false
  | c :: w, d :: s => c == d && matchesAt w s

/-- Scan `s` for a word-boundary occurrence of `w`; `prev` is the character
just before the current position (`none` at the start of the string). -/
def searchFrom (w : List Char) : Option Char → List Char → Bool
  | prev, [] => boundary prev && matchesAt w []
  | prev, c :: s => (boundary prev && matchesAt w (c :: s)) || searchFrom w (some c) s

/-- Word-boundary search over a whole string, i.e. `re.search` for the
pattern `\b<w>\b`. -/
def searchWord (w : List Char) (s : List Char) : Bool := searchFrom w none s

/-- Recognise a pattern string of the shape `\b<literal>\b` with an
alphabetic literal, returning the literal.  All three patterns in
`evaluator.py` have this shape. -/
def parseWordPattern (p : String) : Option (List Char) :=
  match p.data with
  | '\\' :: 'b' :: rest =>
    if 2 ≤ rest.length then
      let mid := rest.take (rest.length - 2)
      let tl := rest.drop (rest.length - 2)
      if tl = ['\\', 'b'] && mid.all Char.isAlpha then some mid else none
    else none
  | _ => none

/-- Model of Python `re.search(pattern, s)` for the pattern fragment used by
`CommandEvaluator` (word-bounded literals); returns whether a match exists. -/
def reSearch (pattern : String) (s : String) : Bool :=
  match parseWordPattern pattern with
  | some w => searchWord w s.data
  | none => false

/-! ### The command evaluator (`src/tools/evaluator.py`)

`CommandEvaluator.evaluate_and_execute` loops over `self.unsafe_patterns`
in order; on the first `re.search` match it returns the refusal dict and
never calls the executor; otherwise it returns
`ssm_client.execute_command(command)` unchanged.  The module-global
`ssm_client` dependency is modelled as an explicit `executor` parameter,
and the second component of the result is the list of commands actually
passed to the executor (the invocation trace a fake executor would record).
-/

namespace CommandEvaluator

/-- The evaluator's fixed ordered pattern list (`self.unsafe_patterns` in
`evaluator.py`; the Lean name avoids a reserved word). -/
def denyPatterns : List String := ["\\bwget\\b", "\\bcurl\\b", "\\bunset\\b"]

/-- The refusal message built in `evaluate_and_execute` for a matched
pattern. -/
def blockedMsg (p : String) : String :=
  "Command blocked: Unsafe pattern \x27" ++ p ++ "\x27 detected. Modify your command."

/-- Result of `evaluate_and_execute`: either the refusal dict
(`{"error": msg}`) or whatever dict the executor returned (of executor
result type `α`). -/
inductive EvalOutcome (α : Type) where
  | error (msg : String)
  | result (r : α)
deriving Repr, DecidableEq

/-- The first pattern of the ordered list matching the command, if any
(the `for pattern in self.unsafe_patterns` loop's first hit). -/
def firstUnsafeMatch (command : String) : Option String :=
  denyPatterns.find? (fun p => reSearch p command)

/-- Embedding of `CommandEvaluator.evaluate_and_execute`.  Returns the
outcome together with the trace of commands forwarded to the executor. -/
def evaluate_and_execute (executor : String → α) (command : String) :
    EvalOutcome α × List String :=
  match firstUnsafeMatch command with
  | some p => (.error (blockedMsg p), [])
  | none => (.result (executor command), [command])

end CommandEvaluator

/-! ### The remote executor (`src/tools/aws.py`)

`SSMClient.execute_command` sends the command, then polls
`get_command_invocation` up to `max_attempts = 30` times, breaking on a
terminal status; the `for ... else` branch returns a timeout error dict when
no attempt saw a terminal status.  The remote service is modelled by
`getStatus : Nat → String` (the status returned by the n-th status poll) and
`finalOutput : α` (the invocation dict fetched after a break).  The second
component of the result counts the status-check calls actually made.
-/

namespace SSMClient

/-- The terminal statuses of the `if status in [...]` break condition. -/
def terminal_statuses : List String :=
  ["Success", "Failed", "Cancelled", "Delivery Timed Out",
   "Execution Timed Out", "Undelivered", "Terminated"]

/-- Whether a reported status terminates the polling loop. -/
def isTerminal (status : String) : Bool := terminal_statuses.contains status

/-- The bound `max_attempts = 30` of the polling loop. -/
def max_attempts : Nat := 30

/-- The polling `for` loop: starting at `attempt`, with `remaining`
iterations left, it returns the attempt index that observed a terminal
status (if any) together with the number of status checks performed. -/
def pollAux (getStatus : Nat → String) : Nat → Nat → Option Nat × Nat
  | _, 0 => (none, 0)
  | attempt, r + 1 =>
    if isTerminal (getStatus attempt) then (some attempt, 1)
    else
      let q := pollAux getStatus (attempt + 1) r
      (q.1, q.2 + 1)

/-- Embedding of `SSMClient.execute_command` from the `send_command` success
path onward: the bounded polling loop followed by either the final output
fetch or the timeout error dict.  Returns the result together with the
number of status checks made. -/
def execute_command (getStatus : Nat → String) (finalOutput : α) :
    CommandEvaluator.EvalOutcome α × Nat :=
  match pollAux getStatus 0 max_attempts with
  | (some _, checks) => (.result finalOutput, checks)
  | (none, checks) => (.error "Command timed out after 30 seconds", checks)

end SSMClient

/-! ### Startup configuration checks (`aws.py` / `gmail.py` `__init__`)

`SSMClient.__init__` collects the required environment variables that are
unset or empty (Python falsy `os.getenv`) and raises `ValueError` if any is
missing; `GmailClient.__init__` raises (re-wrapped as `RuntimeError`) when
`credentials.json` does not exist.  Both clients are constructed at
module-import time, so a raise aborts startup.  Environment and filesystem are
modelled as parameters; a raise is an `Except.error`, distinct by type from
the in-session result dicts (`EvalOutcome`).
-/

namespace StartupConfig

/-- The `required_vars` list of `SSMClient.__init__`. -/
def required_vars : List String :=
  ["AWS_ACCESS_KEY_ID", "AWS_SECRET_ACCESS_KEY", "REGION_NAME", "INSTANCE_ID"]

/-- Python truthiness of `os.getenv(var)`: set and non-empty. -/
def getenvTruthy (env : String → Option String) (v : String) : Bool :=
  match env v with
  | none => false
  | some s => !(s == "")

/-- The extracted SSM configuration on successful init. -/
structure SSMConfig where
  aws_access_key_id : String
  aws_secret_access_key : String
  region_name : String
  instance_id : String
deriving Repr, DecidableEq

/-- Embedding of the configuration-check part of `SSMClient.__init__`:
raises (returns `.error`) when any required variable is missing. -/
def ssmInit (env : String → Option String) : Except String SSMConfig :=
  let missing := required_vars.filter (fun v => !getenvTruthy env v)
  if missing.isEmpty then
    .ok { aws_access_key_id := ((env "AWS_ACCESS_KEY_ID").getD "")
          aws_secret_access_key := ((env "AWS_SECRET_ACCESS_KEY").getD "")
          region_name := ((env "REGION_NAME").getD "")
          instance_id := ((env "INSTANCE_ID").getD "") }
  else
    .error ("Missing required environment variables: " ++ String.intercalate ", " missing)

/-- Embedding of the credentials-file check of `GmailClient.__init__`: the
`FileNotFoundError` is caught by the surrounding `try` and re-raised as
`RuntimeError` with the wrapping prefix. -/
def gmailInit (credentialsFileExists : Bool) : Except String Unit :=
  if credentialsFileExists then .ok ()
  else
    .error ("Failed to initialize Gmail client: credentials.json not found. " ++
      "Please download OAuth client credentials from Google Cloud Console " ++
      "and save as \x27credentials.json\x27 in the project root.")

end StartupConfig

/-! ### The agent loop (`src/agent/agent.py`)

`tool_node` iterates over `state["messages"][-1].tool_calls`, appending one
`ToolMessage` per call: a registry miss raises `ValueError` which the
surrounding `try` turns into a `"Tool execution failed: ..."` message, and
any exception from `tool.invoke` is absorbed the same way.
`should_continue` routes on whether the last message has tool calls, and the
graph wires `llm_call -> (environment | END)` and `environment -> llm_call`.
The LLM is modelled as a function from the history to the next AI message;
tool argument dicts are an opaque type parameter `Args`; a tool is a
function `Args → Except String String` whose `.error` case is a raised
exception's message (`str(e)`).
-/

namespace Agent

/-- A tool-call request produced by the decision-maker
(`{name, args, id}`). -/
structure ToolCall (Args : Type) where
  name : String
  args : Args
  id : String
deriving Repr, DecidableEq

/-- A tool result message (`ToolMessage(content=..., tool_call_id=...)`). -/
structure ToolMessage where
  content : String
  tool_call_id : String
deriving Repr, DecidableEq

/-- A conversation message: its text content and its tool-call requests
(empty for human/tool/plain-AI messages). -/
structure Message (Args : Type) where
  content : String
  tool_calls : List (ToolCall Args)
deriving Repr, DecidableEq

/-- The fixed `tools_by_name` registry, modelled as an association list
(the dict built in `create_agent` has distinct keys); `.get` is the first
matching binding. -/
def lookupTool {Args : Type} (registry : List (String × (Args → Except String String)))
    (n : String) : Option (Args → Except String String) :=
  (registry.find? (fun p => p.1 == n)).map (fun p => p.2)

/-- The body of `tool_node`'s `for` loop for one tool call: registry miss
raises `ValueError("Tool '...' not found")`, any raise is caught and turned
into the `"Tool execution failed: ..."` content. -/
def toolCallResult {Args : Type} (registry : List (String × (Args → Except String String)))
    (tc : ToolCall Args) : ToolMessage :=
  match lookupTool registry tc.name with
  | none =>
    { content := "Tool execution failed: Tool \x27" ++ tc.name ++ "\x27 not found"
      tool_call_id := tc.id }
  | some t =>
    match t tc.args with
    | .ok s => { content := s, tool_call_id := tc.id }
    | .error e => { content := "Tool execution failed: " ++ e, tool_call_id := tc.id }

/-- Embedding of `tool_node`: one result message per tool call of the last
message, in order. -/
def tool_node {Args : Type} (registry : List (String × (Args → Except String String)))
    (calls : List (ToolCall Args)) : List ToolMessage :=
  calls.map (toolCallResult registry)

/-- Embedding of `should_continue`: routes on the last message's tool calls.
Python's `messages[-1]` faults on an empty history, hence the `Option`. -/
def should_continue {Args : Type} (msgs : List (Message Args)) : Option String :=
  match msgs.getLast? with
  | none => none
  | some m => some (if m.tool_calls.isEmpty then "END" else "environment")

/-- A tool result message as it is appended to the conversation state. -/
def toolMessageAsMessage {Args : Type} (tm : ToolMessage) : Message Args :=
  { content := tm.content, tool_calls := [] }

/-- Embedding of the compiled graph run for one user turn: `llm_call`
appends the decision-maker's message, `should_continue` routes either to
`END` (returning the final history) or to the `environment` node, which
appends all tool results and loops back to `llm_call`.  `fuel` bounds the
number of decision-maker invocations so the embedding is total; `none`
means the fuel ran out before the graph reached `END`. -/
def runAgent {Args : Type} (llm : List (Message Args) → Message Args)
    (registry : List (String × (Args → Except String String))) :
    Nat → List (Message Args) → Option (List (Message Args))
  | 0, _ => none
  | fuel + 1, msgs =>
    let resp := llm msgs
    let msgs1 := msgs ++ [resp]
    match should_continue msgs1 with
    | some "environment" =>
      runAgent llm registry fuel
        (msgs1 ++ (tool_node registry resp.tool_calls).map toolMessageAsMessage)
    | _ => some msgs1

end Agent

/-! ### Spec-side characterisation of word-boundary matching

Independent of the executable scanner above, `ContainsStandalone w s` says
the plain word `w` occurs somewhere in `s` flanked by non-word characters or
string edges.  The refinement theorem for C10 relates the gate's behaviour
(via the scanner run on the actual pattern strings) to this
characterisation.
-/

/-- The word `w` occurs standalone (word-bounded) in `s`. -/
def ContainsStandalone (w s : String) : Prop :=
  ∃ pre post : List Char,
    s.data = pre ++ w.data ++ post ∧
    boundary pre.getLast? = true ∧
    boundary post.head? = true

/-! ### Characterisation lemmas for the word-boundary scanner -/

/-- The character preceding the scan position after consuming `pre`,
starting from `prev`. -/
def prevOpt (prev : Option Char) : List Char → Option Char
  | [] => prev
  | c :: pre => prevOpt (some c) pre

theorem prevOpt_eq (pre : List Char) : ∀ prev : Option Char,
    prevOpt prev pre = pre.getLast?.or prev := by
  induction pre with
  | nil => intro prev; rfl
  | cons c pre ih =>
    intro prev
    cases pre with
    | nil => simp [prevOpt, List.getLast?]
    | cons d pre =>
      rw [show prevOpt prev (c :: d :: pre) = prevOpt (some c) (d :: pre) from rfl,
        ih (some c), List.getLast?_cons_cons]
      cases h : (d :: pre).getLast? with
      | none => simp at h
      | some x => simp

theorem matchesAt_iff (w : List Char) : ∀ s : List Char,
    matchesAt w s = true ↔ ∃ post, s = w ++ post ∧ boundary post.head? = true := by
  induction w with
  | nil =>
    intro s
    simp [matchesAt]
  | cons c w ih =>
    intro s
    cases s with
    | nil =>
      simp [matchesAt]
    | cons d s =>
      simp only [matchesAt, Bool.and_eq_true, beq_iff_eq, ih s, List.cons_append,
        List.cons.injEq]
      constructor
      · rintro ⟨rfl, post, rfl, hb⟩
        exact ⟨post, ⟨rfl, rfl⟩, hb⟩
      · rintro ⟨post, ⟨rfl, rfl⟩, hb⟩
        exact ⟨rfl, post, rfl, hb⟩

theorem searchFrom_iff (w : List Char) : ∀ (s : List Char) (prev : Option Char),
    searchFrom w prev s = true ↔
      ∃ pre post, s = pre ++ w ++ post ∧ boundary (prevOpt prev pre) = true ∧
        boundary post.head? = true := by
  intro s
  induction s with
  | nil =>
    intro prev
    simp only [searchFrom, Bool.and_eq_true, matchesAt_iff]
    constructor
    · rintro ⟨hb, post, hpost, hb2⟩
      rcases List.append_eq_nil.mp hpost.symm with ⟨rfl, rfl⟩
      exact ⟨[], [], rfl, hb, hb2⟩
    · rintro ⟨pre, post, heq, hb1, hb2⟩
      rcases List.append_eq_nil.mp heq.symm with ⟨h1, rfl⟩
      rcases List.append_eq_nil.mp h1 with ⟨rfl, rfl⟩
      exact ⟨hb1, [], rfl, hb2⟩
  | cons c s ih =>
    intro prev
    simp only [searchFrom, Bool.or_eq_true, Bool.and_eq_true, matchesAt_iff, ih (some c)]
    constructor
    · rintro (⟨hb, post, heq, hb2⟩ | ⟨pre, post, heq, hb1, hb2⟩)
      · exact ⟨[], post, by simpa using heq, by simpa [prevOpt] using hb, hb2⟩
      · exact ⟨c :: pre, post, by simp [heq], by simpa [prevOpt] using hb1, hb2⟩
    · rintro ⟨pre, post, heq, hb1, hb2⟩
      cases pre with
      | nil =>
        exact Or.inl ⟨by simpa [prevOpt] using hb1, post, by simpa using heq, hb2⟩
      | cons c2 pre =>
        rw [List.cons_append, List.cons_append] at heq
        rcases List.cons.injEq .. ▸ heq with ⟨rfl, rfl⟩
        exact Or.inr ⟨pre, post, rfl, by simpa [prevOpt] using hb1, hb2⟩

theorem searchWord_iff (w s : List Char) :
    searchWord w s = true ↔
      ∃ pre post, s = pre ++ w ++ post ∧ boundary pre.getLast? = true ∧
        boundary post.head? = true := by
  rw [searchWord, searchFrom_iff]
  constructor
  · rintro ⟨pre, post, heq, hb1, hb2⟩
    rw [prevOpt_eq, Option.or_none] at hb1
    exact ⟨pre, post, heq, hb1, hb2⟩
  · rintro ⟨pre, post, heq, hb1, hb2⟩
    refine ⟨pre, post, heq, ?_, hb2⟩
    rw [prevOpt_eq, Option.or_none]
    exact hb1

/-- `re.search` with an actual pattern of the evaluator reduces to the
word-boundary scan of its literal. -/
theorem reSearch_eq_searchWord {p : String} {w : List Char}
    (hp : parseWordPattern p = some w) (s : String) :
    reSearch p s = searchWord w s.data := by
  simp [reSearch, hp]

/-- The gate's `re.search` on a pattern string, characterised as standalone
word containment of the pattern's literal. -/
theorem reSearch_iff_containsStandalone {p : String} {w : String}
    (hp : parseWordPattern p = some w.data) (s : String) :
    reSearch p s = true ↔ ContainsStandalone w s := by
  rw [reSearch_eq_searchWord hp, searchWord_iff]
  rfl

/-! ### Helper lemmas for the evaluator -/

/-- The gate refuses (executor trace empty) exactly when some pattern
matched. -/
theorem evaluate_trace_empty_iff {α : Type} (executor : String → α) (cmd : String) :
    (CommandEvaluator.evaluate_and_execute executor cmd).2 = [] ↔
      (CommandEvaluator.firstUnsafeMatch cmd).isSome = true := by
  unfold CommandEvaluator.evaluate_and_execute
  cases h : CommandEvaluator.firstUnsafeMatch cmd <;> simp

theorem parse_wget : parseWordPattern "\\bwget\\b" = some "wget".data := by decide

theorem parse_curl : parseWordPattern "\\bcurl\\b" = some "curl".data := by decide

theorem parse_unset : parseWordPattern "\\bunset\\b" = some "unset".data := by decide

/-- Some pattern of the denylist matches `cmd` exactly when one of the three
words occurs standalone in `cmd`. -/
theorem anyPattern_iff (cmd : String) :
    (∃ p ∈ CommandEvaluator.denyPatterns, reSearch p cmd = true) ↔
      (ContainsStandalone "wget" cmd ∨ ContainsStandalone "curl" cmd ∨
        ContainsStandalone "unset" cmd) := by
  simp only [CommandEvaluator.denyPatterns, List.mem_cons, List.not_mem_nil, or_false,
    exists_eq_or_imp, exists_eq_left]
  rw [reSearch_iff_containsStandalone parse_wget,
    reSearch_iff_containsStandalone parse_curl,
    reSearch_iff_containsStandalone parse_unset]

/-! ### Helper lemmas for the polling loop -/

theorem pollAux_checks_le (getStatus : Nat → String) :
    ∀ (r attempt : Nat), (SSMClient.pollAux getStatus attempt r).2 ≤ r := by
  intro r
  induction r with
  | zero => intro attempt; simp [SSMClient.pollAux]
  | succ r ih =>
    intro attempt
    rw [SSMClient.pollAux]
    split
    · simp
    · simpa using Nat.succ_le_succ (ih (attempt + 1))

theorem pollAux_none (getStatus : Nat → String) :
    ∀ (r attempt : Nat),
      (∀ i, attempt ≤ i → i < attempt + r → SSMClient.isTerminal (getStatus i) = false) →
      SSMClient.pollAux getStatus attempt r = (none, r) := by
  intro r
  induction r with
  | zero => intro attempt _; rfl
  | succ r ih =>
    intro attempt h
    rw [SSMClient.pollAux]
    have h0 : SSMClient.isTerminal (getStatus attempt) = false :=
      h attempt (Nat.le_refl _) (by omega)
    rw [h0]
    simp only [Bool.false_eq_true, if_false]
    rw [ih (attempt + 1) (fun i hi1 hi2 => h i (by omega) (by omega))]

/-! ### Helper lemmas for the agent loop -/

/-- Each tool result carries the call id of its request. -/
theorem toolCallResult_id {Args : Type}
    (registry : List (String × (Args → Except String String)))
    (tc : Agent.ToolCall Args) :
    (Agent.toolCallResult registry tc).tool_call_id = tc.id := by
  unfold Agent.toolCallResult
  split
  · rfl
  · split <;> rfl

/-- One loop iteration with pending tool calls: all tool results are
appended and the loop re-invokes the decision-maker. -/
theorem runAgent_step {Args : Type} (llm : List (Agent.Message Args) → Agent.Message Args)
    (registry : List (String × (Args → Except String String)))
    (fuel : Nat) (msgs : List (Agent.Message Args))
    (h : (llm msgs).tool_calls ≠ []) :
    Agent.runAgent llm registry (fuel + 1) msgs =
      Agent.runAgent llm registry fuel
        (msgs ++ [llm msgs] ++
          (Agent.tool_node registry (llm msgs).tool_calls).map Agent.toolMessageAsMessage) := by
  rw [Agent.runAgent]
  have hsc : Agent.should_continue (msgs ++ [llm msgs]) = some "environment" := by
    unfold Agent.should_continue
    rw [List.getLast?_concat]
    simp [List.isEmpty_iff, h]
  rw [hsc]
  rfl

/-- One loop iteration with no tool calls: the loop exits with the
decision-maker's reply appended. -/
theorem runAgent_stop {Args : Type} (llm : List (Agent.Message Args) → Agent.Message Args)
    (registry : List (String × (Args → Except String String)))
    (fuel : Nat) (msgs : List (Agent.Message Args))
    (h : (llm msgs).tool_calls = []) :
    Agent.runAgent llm registry (fuel + 1) msgs = some (msgs ++ [llm msgs]) := by
  rw [Agent.runAgent]
  have hsc : Agent.should_continue (msgs ++ [llm msgs]) = some "END" := by
    unfold Agent.should_continue
    rw [List.getLast?_concat]
    simp [List.isEmpty_iff, h]
  rw [hsc]
  rfl

/-- Forwarding helper: with no pattern matching, the gate delegates once to
the executor and returns its result. -/
theorem evaluate_no_match {α : Type} (executor : String → α) (cmd : String)
    (h : ∀ p ∈ CommandEvaluator.denyPatterns, reSearch p cmd = false) :
    CommandEvaluator.evaluate_and_execute executor cmd =
      (.result (executor cmd), [cmd]) := by
  have hnone : CommandEvaluator.firstUnsafeMatch cmd = none := by
    rw [CommandEvaluator.firstUnsafeMatch, List.find?_eq_none]
    intro x hx
    simp [h x hx]
  simp [CommandEvaluator.evaluate_and_execute, hnone]

/-! ### Claims about the safety gate -/

/-- C1: for every command matching at least one pattern of the gate's fixed
ordered pattern list, `evaluate_and_execute` returns a refusal carrying the
first matching pattern (every earlier pattern does not match), and the
remote executor is never invoked (its invocation trace is empty). -/
theorem C1_unsafe_command_refused {α : Type} (executor : String → α) (cmd : String)
    (h : ∃ p ∈ CommandEvaluator.denyPatterns, reSearch p cmd = true) :
    ∃ p, reSearch p cmd = true ∧
      (∃ before after, CommandEvaluator.denyPatterns = before ++ p :: after ∧
        ∀ q ∈ before, reSearch q cmd = false) ∧
      CommandEvaluator.evaluate_and_execute executor cmd =
        (.error (CommandEvaluator.blockedMsg p), []) := by
  obtain ⟨p0, hp0, hm⟩ := h
  have hsome : (CommandEvaluator.firstUnsafeMatch cmd).isSome := by
    rw [CommandEvaluator.firstUnsafeMatch, List.find?_isSome]
    exact ⟨p0, hp0, hm⟩
  obtain ⟨p, hp⟩ := Option.isSome_iff_exists.mp hsome
  have hp2 := hp
  rw [CommandEvaluator.firstUnsafeMatch] at hp2
  obtain ⟨hmp, before, after, hsplit, hbefore⟩ := List.find?_eq_some.mp hp2
  refine ⟨p, hmp, ⟨before, after, hsplit, fun q hq => by simpa using hbefore q hq⟩, ?_⟩
  simp [CommandEvaluator.evaluate_and_execute, hp]

/-- Witness for C1 at the concrete command `wget http://host/x.sh`. -/
theorem C1_witness :
    (∃ p ∈ CommandEvaluator.denyPatterns, reSearch p "wget http://host/x.sh" = true) ∧
    (∃ p, reSearch p "wget http://host/x.sh" = true ∧
      (∃ before after, CommandEvaluator.denyPatterns = before ++ p :: after ∧
        ∀ q ∈ before, reSearch q "wget http://host/x.sh" = false) ∧
      CommandEvaluator.evaluate_and_execute (fun _ => (0 : Nat)) "wget http://host/x.sh" =
        (.error (CommandEvaluator.blockedMsg p), [])) :=
  ⟨by decide, C1_unsafe_command_refused (fun _ => (0 : Nat)) "wget http://host/x.sh" (by decide)⟩

/-- C2: for every command matching none of the patterns, the gate invokes
the remote executor exactly once with that command (trace `[cmd]`) and
returns the executor's result unchanged, whatever it is (including error
and timeout dicts, since the result type is arbitrary). -/
theorem C2_safe_command_forwarded_once {α : Type} (executor : String → α) (cmd : String)
    (h : ∀ p ∈ CommandEvaluator.denyPatterns, reSearch p cmd = false) :
    CommandEvaluator.evaluate_and_execute executor cmd =
      (.result (executor cmd), [cmd]) :=
  evaluate_no_match executor cmd h

/-- Witness for C2: a safe command forwarded to an executor that itself
reports an SSM polling timeout; the timeout error is passed through
unchanged and the executor runs exactly once. -/
theorem C2_witness :
    (∀ p ∈ CommandEvaluator.denyPatterns, reSearch p "systemctl status sshd" = false) ∧
    CommandEvaluator.evaluate_and_execute
        (fun _ => (SSMClient.execute_command (fun _ => "InProgress") (0 : Nat)).1)
        "systemctl status sshd" =
      (.result (.error "Command timed out after 30 seconds"), ["systemctl status sshd"]) := by
  refine ⟨by decide, ?_⟩
  rw [C2_safe_command_forwarded_once
    (fun _ => (SSMClient.execute_command (fun _ => "InProgress") (0 : Nat)).1)
    "systemctl status sshd" (by decide)]
  rfl

/-- C8: the gate's denylist is exactly the three patterns for `wget`,
`curl` and `unset`; every command matching none of them (including
arbitrary destructive ones) passes through to the executor. -/
theorem C8_denylist_exactly_three {α : Type} (executor : String → α) (cmd : String)
    (h : ∀ p ∈ CommandEvaluator.denyPatterns, reSearch p cmd = false) :
    CommandEvaluator.denyPatterns = ["\\bwget\\b", "\\bcurl\\b", "\\bunset\\b"] ∧
    CommandEvaluator.denyPatterns.length = 3 ∧
    CommandEvaluator.evaluate_and_execute executor cmd =
      (.result (executor cmd), [cmd]) :=
  ⟨rfl, rfl, evaluate_no_match executor cmd h⟩

/-- Witness for C8: the destructive command `rm -rf /` matches no pattern
and is forwarded to the executor. -/
theorem C8_witness :
    (∀ p ∈ CommandEvaluator.denyPatterns, reSearch p "rm -rf /" = false) ∧
    CommandEvaluator.denyPatterns.length = 3 ∧
    CommandEvaluator.evaluate_and_execute (fun _ => (0 : Nat)) "rm -rf /" =
      (.result 0, ["rm -rf /"]) :=
  ⟨by decide, (C8_denylist_exactly_three (fun _ => (0 : Nat)) "rm -rf /" (by decide)).2.1,
    (C8_denylist_exactly_three (fun _ => (0 : Nat)) "rm -rf /" (by decide)).2.2⟩

/-! ### Claims about the agent loop -/

/-- C3: with no tool-call requests in the last message, `should_continue`
returns `END`; with one or more it returns `environment`; and whenever the
decision-maker replies without tool calls the loop exits with that reply
appended. -/
theorem C3_loop_terminates_on_plain_reply {Args : Type}
    (llm : List (Agent.Message Args) → Agent.Message Args)
    (registry : List (String × (Args → Except String String)))
    (msgs : List (Agent.Message Args)) (m : Agent.Message Args) (fuel : Nat)
    (hlast : msgs.getLast? = some m) :
    (m.tool_calls = [] → Agent.should_continue msgs = some "END") ∧
    (m.tool_calls ≠ [] → Agent.should_continue msgs = some "environment") ∧
    ((llm msgs).tool_calls = [] →
      Agent.runAgent llm registry (fuel + 1) msgs = some (msgs ++ [llm msgs])) := by
  refine ⟨?_, ?_, fun h => runAgent_stop llm registry fuel msgs h⟩
  · intro h
    unfold Agent.should_continue
    rw [hlast]
    simp [h]
  · intro h
    unfold Agent.should_continue
    rw [hlast]
    simp [List.isEmpty_iff, h]

/-- Witness for C3 on a one-message history and a tool-free reply. -/
theorem C3_witness :
    Agent.should_continue ([{ content := "hello", tool_calls := [] }] :
        List (Agent.Message Unit)) = some "END" ∧
    Agent.runAgent (fun _ => { content := "done", tool_calls := [] })
        ([] : List (String × (Unit → Except String String))) 1
        [{ content := "hello", tool_calls := [] }] =
      some [{ content := "hello", tool_calls := [] },
            { content := "done", tool_calls := [] }] := by
  have h := C3_loop_terminates_on_plain_reply
    (fun _ => { content := "done", tool_calls := [] })
    ([] : List (String × (Unit → Except String String)))
    [{ content := "hello", tool_calls := [] }] { content := "hello", tool_calls := [] }
    0 rfl
  refine ⟨h.1 rfl, ?_⟩
  rw [h.2.2 rfl]
  rfl

/-- C4: one run of the tool node produces exactly one result per request of
the round, in order, each carrying its request's call id; with pending
requests, the loop appends all of them before re-invoking the
decision-maker. -/
theorem C4_one_result_per_request {Args : Type}
    (registry : List (String × (Args → Except String String)))
    (calls : List (Agent.ToolCall Args)) :
    (Agent.tool_node registry calls).length = calls.length ∧
    (Agent.tool_node registry calls).map Agent.ToolMessage.tool_call_id =
      calls.map Agent.ToolCall.id ∧
    (∀ (llm : List (Agent.Message Args) → Agent.Message Args)
        (msgs : List (Agent.Message Args)) (fuel : Nat),
      (llm msgs).tool_calls = calls → calls ≠ [] →
      Agent.runAgent llm registry (fuel + 1) msgs =
        Agent.runAgent llm registry fuel
          (msgs ++ [llm msgs] ++
            (Agent.tool_node registry calls).map Agent.toolMessageAsMessage)) := by
  refine ⟨by simp [Agent.tool_node], ?_, ?_⟩
  · unfold Agent.tool_node
    rw [List.map_map]
    exact List.map_congr_left fun tc _ => toolCallResult_id registry tc
  · intro llm msgs fuel hcalls hne
    have hstep := runAgent_step llm registry fuel msgs (by rw [hcalls]; exact hne)
    rw [hcalls] at hstep
    exact hstep

/-- Witness for C4 on a two-request round (one registered tool, one not). -/
theorem C4_witness :
    (Agent.tool_node [("evaluator", fun _ => Except.ok "ok")]
        [⟨"evaluator", (), "call-1"⟩, ⟨"nope", (), "call-2"⟩]).length = 2 ∧
    (Agent.tool_node [("evaluator", fun _ => Except.ok "ok")]
        [⟨"evaluator", (), "call-1"⟩, ⟨"nope", (), "call-2"⟩]).map
          Agent.ToolMessage.tool_call_id = ["call-1", "call-2"] ∧
    Agent.runAgent
        (fun _ => { content := "ai",
                    tool_calls := [⟨"evaluator", (), "call-1"⟩, ⟨"nope", (), "call-2"⟩] })
        [("evaluator", fun _ => Except.ok "ok")] 1 [{ content := "u", tool_calls := [] }] =
      Agent.runAgent
        (fun _ => { content := "ai",
                    tool_calls := [⟨"evaluator", (), "call-1"⟩, ⟨"nope", (), "call-2"⟩] })
        [("evaluator", fun _ => Except.ok "ok")] 0
        ([{ content := "u", tool_calls := [] }] ++
          [{ content := "ai",
             tool_calls := [⟨"evaluator", (), "call-1"⟩, ⟨"nope", (), "call-2"⟩] }] ++
          (Agent.tool_node [("evaluator", fun _ => Except.ok "ok")]
            [⟨"evaluator", (), "call-1"⟩, ⟨"nope", (), "call-2"⟩]).map
              Agent.toolMessageAsMessage) := by
  have h := C4_one_result_per_request
    [("evaluator", fun _ => Except.ok "ok")]
    [⟨"evaluator", (), "call-1"⟩, ⟨"nope", (), "call-2"⟩]
  exact ⟨h.1, h.2.1, h.2.2 _ [{ content := "u", tool_calls := [] }] 0 rfl (by simp)⟩

/-- C5: a tool-call request whose invocation raises is converted locally
into a textual error result for its call id; the round still yields one
result per request (processing continues), and the loop goes on to
re-invoke the decision-maker instead of propagating the exception. -/
theorem C5_tool_exception_absorbed {Args : Type}
    (registry : List (String × (Args → Except String String)))
    (calls : List (Agent.ToolCall Args)) (i : Nat) (hi : i < calls.length)
    (t : Args → Except String String) (e : String)
    (hlook : Agent.lookupTool registry calls[i].name = some t)
    (herr : t calls[i].args = .error e) :
    (Agent.tool_node registry calls)[i]? =
      some { content := "Tool execution failed: " ++ e,
             tool_call_id := calls[i].id } ∧
    (Agent.tool_node registry calls).length = calls.length ∧
    (∀ (llm : List (Agent.Message Args) → Agent.Message Args)
        (msgs : List (Agent.Message Args)) (fuel : Nat),
      (llm msgs).tool_calls = calls →
      Agent.runAgent llm registry (fuel + 1) msgs =
        Agent.runAgent llm registry fuel
          (msgs ++ [llm msgs] ++
            (Agent.tool_node registry calls).map Agent.toolMessageAsMessage)) := by
  have hne : calls ≠ [] := by
    intro hc
    rw [hc] at hi
    exact absurd hi (by simp)
  refine ⟨?_, by simp [Agent.tool_node], ?_⟩
  · unfold Agent.tool_node
    rw [List.getElem?_map, List.getElem?_eq_getElem hi]
    rw [Option.map_some']
    simp [Agent.toolCallResult, hlook, herr]
  · intro llm msgs fuel hcalls
    have hstep := runAgent_step llm registry fuel msgs (by rw [hcalls]; exact hne)
    rw [hcalls] at hstep
    exact hstep

/-- Witness for C5: a registered tool that raises; its error text is
captured, the later request of the round is still processed, and the loop
re-invokes the decision-maker. -/
theorem C5_witness :
    (Agent.tool_node
        [("boom", fun _ => Except.error "kaboom"), ("quiet", fun _ => Except.ok "fine")]
        [⟨"boom", (), "id-1"⟩, ⟨"quiet", (), "id-2"⟩])[0]? =
      some { content := "Tool execution failed: kaboom", tool_call_id := "id-1" } ∧
    (Agent.tool_node
        [("boom", fun _ => Except.error "kaboom"), ("quiet", fun _ => Except.ok "fine")]
        [⟨"boom", (), "id-1"⟩, ⟨"quiet", (), "id-2"⟩]).length = 2 := by
  have h := C5_tool_exception_absorbed
    [("boom", fun _ => Except.error "kaboom"), ("quiet", fun _ => Except.ok "fine")]
    [⟨"boom", (), "id-1"⟩, ⟨"quiet", (), "id-2"⟩] 0 (by simp)
    (fun _ => Except.error "kaboom") "kaboom" rfl rfl
  exact ⟨h.1, h.2.1⟩

/-- C6: a tool-call request naming a tool absent from the registry yields
exactly one synthetic not-found error result carrying the request's call
id — no tool is invoked for it — and the loop re-invokes the
decision-maker. -/
theorem C6_unknown_tool_not_found {Args : Type}
    (registry : List (String × (Args → Except String String)))
    (calls : List (Agent.ToolCall Args)) (i : Nat) (hi : i < calls.length)
    (hlook : Agent.lookupTool registry calls[i].name = none) :
    (Agent.tool_node registry calls)[i]? =
      some { content := "Tool execution failed: Tool \x27" ++
               calls[i].name ++ "\x27 not found",
             tool_call_id := calls[i].id } ∧
    (Agent.tool_node registry calls).length = calls.length ∧
    (∀ (llm : List (Agent.Message Args) → Agent.Message Args)
        (msgs : List (Agent.Message Args)) (fuel : Nat),
      (llm msgs).tool_calls = calls →
      Agent.runAgent llm registry (fuel + 1) msgs =
        Agent.runAgent llm registry fuel
          (msgs ++ [llm msgs] ++
            (Agent.tool_node registry calls).map Agent.toolMessageAsMessage)) := by
  have hne : calls ≠ [] := by
    intro hc
    rw [hc] at hi
    exact absurd hi (by simp)
  refine ⟨?_, by simp [Agent.tool_node], ?_⟩
  · unfold Agent.tool_node
    rw [List.getElem?_map, List.getElem?_eq_getElem hi]
    rw [Option.map_some']
    simp [Agent.toolCallResult, hlook]
  · intro llm msgs fuel hcalls
    have hstep := runAgent_step llm registry fuel msgs (by rw [hcalls]; exact hne)
    rw [hcalls] at hstep
    exact hstep

/-- Witness for C6: a request for the unregistered tool `X` gets exactly
one synthetic not-found result. -/
theorem C6_witness :
    (Agent.tool_node
        [("evaluator", fun _ => Except.ok "ok")] [⟨"X", (), "id-9"⟩])[0]? =
      some { content := "Tool execution failed: Tool \x27X\x27 not found",
             tool_call_id := "id-9" } ∧
    (Agent.tool_node
        [("evaluator", fun _ => Except.ok "ok")] [⟨"X", (), "id-9"⟩]).length = 1 := by
  have h := C6_unknown_tool_not_found
    [("evaluator", fun _ => Except.ok "ok")] [⟨"X", (), "id-9"⟩] 0 (by simp) rfl
  exact ⟨h.1, h.2.1⟩

/-! ### Claims about the remote executor and startup checks -/

/-- C7: the polling loop performs at most `max_attempts = 30` status
checks, and when no attempt within the bound observes a terminal status,
`execute_command` returns the timeout error dict (after exactly 30 checks)
instead of polling further. -/
theorem C7_polling_bounded_timeout {α : Type} (getStatus : Nat → String) (finalOutput : α) :
    (SSMClient.execute_command getStatus finalOutput).2 ≤ SSMClient.max_attempts ∧
    ((∀ i, i < SSMClient.max_attempts → SSMClient.isTerminal (getStatus i) = false) →
      SSMClient.execute_command getStatus finalOutput =
        (.error "Command timed out after 30 seconds", SSMClient.max_attempts)) := by
  constructor
  · have h := pollAux_checks_le getStatus SSMClient.max_attempts 0
    rcases hq : SSMClient.pollAux getStatus 0 SSMClient.max_attempts with ⟨o, c⟩
    rw [hq] at h
    unfold SSMClient.execute_command
    rw [hq]
    cases o <;> simpa using h
  · intro h
    have hnone := pollAux_none getStatus SSMClient.max_attempts 0
      (fun i _ h2 => h i (by omega))
    unfold SSMClient.execute_command
    rw [hnone]

/-- Witness for C7: a status that stays `InProgress` forever yields the
timeout error after exactly 30 checks. -/
theorem C7_witness :
    (SSMClient.execute_command (fun _ => "InProgress") (0 : Nat)).2 ≤
      SSMClient.max_attempts ∧
    SSMClient.execute_command (fun _ => "InProgress") (0 : Nat) =
      (.error "Command timed out after 30 seconds", SSMClient.max_attempts) := by
  have h := C7_polling_bounded_timeout (fun _ => "InProgress") (0 : Nat)
  exact ⟨h.1, h.2 (by intro i _; decide)⟩

/-- C9: a missing (unset or empty) required environment variable makes the
SSM client initialisation raise, a missing credentials file makes the Gmail
client initialisation raise; both failures are raises (`Except.error`) at
client construction, not in-session result dicts. -/
theorem C9_missing_config_fatal (env : String → Option String) (v : String)
    (hv : v ∈ StartupConfig.required_vars)
    (hmiss : StartupConfig.getenvTruthy env v = false) :
    (∃ msg, StartupConfig.ssmInit env = .error msg) ∧
    (∀ cfg, StartupConfig.ssmInit env ≠ .ok cfg) ∧
    (∃ msg, StartupConfig.gmailInit false = .error msg) := by
  have hmem : v ∈ StartupConfig.required_vars.filter
      (fun x => !StartupConfig.getenvTruthy env x) :=
    List.mem_filter.mpr ⟨hv, by simp [hmiss]⟩
  have hne : (StartupConfig.required_vars.filter
      (fun x => !StartupConfig.getenvTruthy env x)).isEmpty = false := by
    by_contra hc
    rw [Bool.not_eq_false, List.isEmpty_iff] at hc
    rw [hc] at hmem
    exact absurd hmem (List.not_mem_nil v)
  have herr : StartupConfig.ssmInit env = .error
      ("Missing required environment variables: " ++ String.intercalate ", "
        (StartupConfig.required_vars.filter (fun x => !StartupConfig.getenvTruthy env x))) := by
    simp only [StartupConfig.ssmInit, hne, Bool.false_eq_true, if_false]
  refine ⟨⟨_, herr⟩, fun cfg hok => ?_, ⟨_, rfl⟩⟩
  rw [herr] at hok
  exact Except.noConfusion hok

/-- Witness for C9 on the empty environment. -/
theorem C9_witness :
    ("AWS_ACCESS_KEY_ID" ∈ StartupConfig.required_vars) ∧
    StartupConfig.getenvTruthy (fun _ => none) "AWS_ACCESS_KEY_ID" = false ∧
    (∃ msg, StartupConfig.ssmInit (fun _ => none) = .error msg) ∧
    (∃ msg, StartupConfig.gmailInit false = .error msg) := by
  have h := C9_missing_config_fatal (fun _ => none) "AWS_ACCESS_KEY_ID"
    (by decide) rfl
  exact ⟨by decide, rfl, h.1, h.2.2⟩

/-! ### The implicit word-boundary claim -/

/-- C10: the gate refuses exactly the commands containing `wget`, `curl` or
`unset` as a standalone word anywhere in the string — even as an argument
or inside quotes — while commands containing those letters only inside a
longer word are forwarded to the executor: `echo "curl"` is refused, while
`curling is a sport` and `wgets` are forwarded. -/
theorem C10_word_boundary_semantics :
    (∀ (cmd : String) (executor : String → Nat),
      ((CommandEvaluator.evaluate_and_execute executor cmd).2 = [] ↔
        (ContainsStandalone "wget" cmd ∨ ContainsStandalone "curl" cmd ∨
          ContainsStandalone "unset" cmd))) ∧
    (CommandEvaluator.evaluate_and_execute (fun _ => 0) "echo \x22curl\x22").2 = [] ∧
    (CommandEvaluator.evaluate_and_execute (fun _ => 0) "curling is a sport").2 =
      ["curling is a sport"] ∧
    (CommandEvaluator.evaluate_and_execute (fun _ => 0) "wgets").2 = ["wgets"] := by
  refine ⟨fun cmd executor => ?_, by decide, by decide, by decide⟩
  rw [evaluate_trace_empty_iff, CommandEvaluator.firstUnsafeMatch, List.find?_isSome]
  rw [← anyPattern_iff]
